import Mathlib

/-
Verification of the `ulp-1-5` export scripts (`txtexport.py`, mode a, and
`txtexport_onefile.py`, mode b) against their specification.

The scripts are embedded shallowly:
  * paths are lists of name segments relative to the base directory;
  * the file system is a pair of a directory list and an association list
    from file paths to byte contents;
  * Python string operations (`str.strip`, `str.splitlines`,
    `str.lstrip("/")`), text-mode reads (UTF-8 decode with
    `errors="ignore"` plus universal-newline translation) and `os.walk`
    are modelled as executable functions;
  * each script becomes a pure function from an initial file system to the
    final file system together with either the run's in-memory record or
    the propagated error.
-/

namespace TxtExport

/-- Python strings, modelled as lists of characters. -/
abbrev Str := List Char

/-- Characters of a Lean string literal, used to write concrete `Str` values. -/
def chars (s : String) : Str := s.data

/-- A path relative to the base directory, as a list of name segments. -/
abbrev Path := List Str

/-- Whitespace characters removed by Python `str.strip()` (ASCII subset). -/
def isPyWs (c : Char) : Bool :=
  c == ' ' || c == '\t' || c == '\n' || c == '\r' || c == '\x0b' || c == '\x0c'

/-- Python `str.lstrip()` restricted to whitespace. -/
def pyLstripWs (s : Str) : Str := s.dropWhile isPyWs

/-- Python `str.strip()`: remove leading and trailing whitespace. -/
def pyStrip (s : Str) : Str := ((pyLstripWs s).reverse.dropWhile isPyWs).reverse

/-- Line-break characters recognised by Python `str.splitlines()`. -/
def isLineBreak (c : Char) : Bool :=
  c == '\n' || c == '\r' || c == '\x0b' || c == '\x0c' || c == '\x1c' ||
  c == '\x1d' || c == '\x1e' || c == '\x85' || c == '\u2028' || c == '\u2029'

/-- Python `str.splitlines()`: split at line boundaries, treating `\r\n` as a
single boundary; a trailing boundary does not produce a final empty line. -/
def pySplitlines : Str → List Str
  | [] => []
  | '\r' :: '\n' :: rest => [] :: pySplitlines rest
  | '\r' :: rest => [] :: pySplitlines rest
  | c :: rest =>
    if isLineBreak c then
      [] :: pySplitlines rest
    else
      match pySplitlines rest with
      | [] => [[c]]
      | l :: ls => (c :: l) :: ls

/-- The manifest reader of both scripts: `file.read().strip().splitlines()`. -/
def readEntries (t : Str) : List Str := pySplitlines (pyStrip t)

/-- Universal-newline translation performed by text-mode reads:
`\r\n` and lone `\r` become `\n`. -/
def univNlChars : Str → Str
  | [] => []
  | '\r' :: '\n' :: rest => '\n' :: univNlChars rest
  | '\r' :: rest => '\n' :: univNlChars rest
  | c :: rest => c :: univNlChars rest

/-- Text-mode read of the manifest file: bytes to characters (one byte per
character, as in a single-byte locale encoding) with universal newlines. -/
def textRead (bs : List Nat) : Str := univNlChars (bs.map Char.ofNat)

/-- Whether a byte is a UTF-8 continuation byte. -/
def isCont (b : Nat) : Bool := 0x80 ≤ b && b ≤ 0xBF

/-- One step of UTF-8 decoding with `errors="ignore"`: given the first byte
and the remaining bytes, return the decoded code point (or `none` for an
undecodable byte, which is dropped) and the bytes still to decode. -/
def utf8Step (b1 : Nat) (t1 : List Nat) : Option Nat × List Nat :=
  if b1 < 0x80 then (some b1, t1)
  else if 0xC2 ≤ b1 && b1 ≤ 0xDF then
    match t1 with
    | b2 :: t2 =>
      if isCont b2 then (some ((b1 - 0xC0) * 0x40 + (b2 - 0x80)), t2)
      else (none, t1)
    | [] => (none, [])
  else if 0xE0 ≤ b1 && b1 ≤ 0xEF then
    match t1 with
    | b2 :: b3 :: t3 =>
      if (if b1 = 0xE0 then 0xA0 ≤ b2 && b2 ≤ 0xBF
          else if b1 = 0xED then 0x80 ≤ b2 && b2 ≤ 0x9F
          else isCont b2) && isCont b3 then
        (some ((b1 - 0xE0) * 0x1000 + (b2 - 0x80) * 0x40 + (b3 - 0x80)), t3)
      else (none, t1)
    | _ => (none, t1)
  else if 0xF0 ≤ b1 && b1 ≤ 0xF4 then
    match t1 with
    | b2 :: b3 :: b4 :: t4 =>
      if (if b1 = 0xF0 then 0x90 ≤ b2 && b2 ≤ 0xBF
          else if b1 = 0xF4 then 0x80 ≤ b2 && b2 ≤ 0x8F
          else isCont b2) && isCont b3 && isCont b4 then
        (some ((b1 - 0xF0) * 0x40000 + (b2 - 0x80) * 0x1000 + (b3 - 0x80) * 0x40 + (b4 - 0x80)),
         t4)
      else (none, t1)
    | _ => (none, t1)
  else (none, t1)

/-- Decoding worker: structural recursion on a fuel bounding the number of
decode steps (one step consumes at least one byte, so a fuel equal to the
byte count never runs out). -/
def utf8DecodeGo : Nat → List Nat → List Nat
  | _, [] => []
  | 0, _ => []
  | fuel + 1, b1 :: t1 =>
    match utf8Step b1 t1 with
    | (some c, rest) => c :: utf8DecodeGo fuel rest
    | (none, rest) => utf8DecodeGo fuel rest

/-- UTF-8 decoding with `errors="ignore"`, as in
`open(..., encoding="utf-8", errors="ignore")`: valid sequences become code
points, undecodable bytes are dropped without error. -/
def utf8DecodeIgnore (l : List Nat) : List Nat := utf8DecodeGo l.length l

/-- Universal-newline translation on already decoded code points. -/
def univNlCp : List Nat → List Nat
  | [] => []
  | 13 :: 10 :: rest => 10 :: univNlCp rest
  | 13 :: rest => 10 :: univNlCp rest
  | c :: rest => c :: univNlCp rest

/-- Text-mode read of a source file in mode b: UTF-8 decode with
`errors="ignore"`, then universal-newline translation. -/
def decodeText (bs : List Nat) : List Nat := univNlCp (utf8DecodeIgnore bs)

/-- Code points of a character string. -/
def codes (s : Str) : List Nat := s.map Char.toNat

/-- UTF-8 encoding of one code point (used when artifacts are written with
`encoding="utf-8"`). -/
def utf8EncodeCp (c : Nat) : List Nat :=
  if c < 0x80 then [c]
  else if c < 0x800 then [0xC0 + c / 0x40, 0x80 + c % 0x40]
  else if c < 0x10000 then
    [0xE0 + c / 0x1000, 0x80 + c / 0x40 % 0x40, 0x80 + c % 0x40]
  else
    [0xF0 + c / 0x40000, 0x80 + c / 0x1000 % 0x40, 0x80 + c / 0x40 % 0x40, 0x80 + c % 0x40]

/-- UTF-8 encoding of a code-point sequence. -/
def utf8Encode (cps : List Nat) : List Nat := cps.flatMap utf8EncodeCp

/-- Whether a character is a path separator (Windows accepts both). -/
def isSep (c : Char) : Bool := c == '/' || c == '\\'

/-- Python `relative_path.lstrip("/")`. -/
def dropSlash (s : Str) : Str := s.dropWhile (fun c => c == '/')

/-- Raw split of a string at path separators (may produce empty segments). -/
def splitSegs : Str → List Str
  | [] => [[]]
  | c :: rest =>
    if isSep c then
      [] :: splitSegs rest
    else
      match splitSegs rest with
      | [] => [[c]]
      | seg :: more => (c :: seg) :: more

/-- Segments of a manifest entry after `lstrip("/")`, with empty segments
dropped (path normalisation performed by the OS when resolving). -/
def entrySegs (e : Str) : Path :=
  (splitSegs (dropSlash e)).filter (fun seg => !seg.isEmpty)

/-- Forward-slash rendering of a path, as produced by
`os.path.relpath(p, base_dir).replace("\\", "/")`. -/
def render (p : Path) : Str := List.intercalate (chars "/") p

/-- Last segment of a path: `os.path.basename`. -/
def lastSeg (p : Path) : Str := p.getLastD []

/-- Whether the first path is an ancestor-or-equal of the second. -/
def pathUnder : Path → Path → Bool
  | [], _ => true
  | _ :: _, [] => false
  | a :: as, b :: bs => if a = b then pathUnder as bs else false

/-- Membership of a path in a list of paths. -/
def memPath (p : Path) : List Path → Bool
  | [] => false
  | q :: rest => if q = p then true else memPath p rest

/-- The file system visible to a run: the directories below the base
directory and an association list from file paths to byte contents. -/
structure FS where
  dirs : List Path
  files : List (Path × List Nat)
  deriving DecidableEq

/-- First content stored under a path in a file association list. -/
def findFileGo (p : Path) : List (Path × List Nat) → Option (List Nat)
  | [] => none
  | f :: rest => if f.1 = p then some f.2 else findFileGo p rest

/-- Content of the file at a path, if a file is there. -/
def findFile (fs : FS) (p : Path) : Option (List Nat) := findFileGo p fs.files

/-- `os.path.isdir`: the base directory itself (empty path) always exists. -/
def isDir (fs : FS) (p : Path) : Bool := p.isEmpty || memPath p fs.dirs

/-- `os.path.isfile`. -/
def isFile (fs : FS) (p : Path) : Bool := (findFile fs p).isSome

/-- The files enumerated by `os.walk(p)`: every file below `p`, with its full
base-relative path; the order is the file-list order of the model (the
`os.listdir` order is platform-dependent). -/
def walk (fs : FS) (p : Path) : List (Path × List Nat) :=
  fs.files.filter (fun f => pathUnder p f.1)

/-- Remove the file at a path from an association list. -/
def removeFile (p : Path) : List (Path × List Nat) → List (Path × List Nat)
  | [] => []
  | f :: rest => if f.1 = p then removeFile p rest else f :: removeFile p rest

/-- Write (create or overwrite) the file at a path. -/
def writeFile (fs : FS) (p : Path) (content : List Nat) : FS :=
  ⟨fs.dirs, removeFile p fs.files ++ [(p, content)]⟩

/-- The hard-coded base directory of both scripts. -/
def baseDir : Str :=
  chars "c:\\Users\\Lenovo\\Documents\\BUSINESS\\QUETZAL COLLECTIVE LLC\\ULP\\ulp-1.5"

/-- Name of the manifest file. -/
def manifestName : Str := chars "prompt_file_list.txt"

/-- Path of the manifest file. -/
def manifestPath : Path := [manifestName]

/-- Name of the output directory `txtexport_flattened`. -/
def outDirSeg : Str := chars "txtexport_flattened"

/-- `os.path.join(base_dir, s)` for a component with no leading separator. -/
def winJoin (s : Str) : Str := baseDir ++ '\\' :: s

/-- Windows rendering of a base-relative segment path. -/
def winPath (p : Path) : Str := baseDir ++ p.flatMap (fun seg => '\\' :: seg)

/-- The `Path not found: {source_path}` progress line. -/
def notFoundLine (e : Str) : Str :=
  chars "Path not found: " ++ winJoin (dropSlash e)

/-- The `Copied and renamed: {src} -> {dst}` progress line. -/
def copiedLine (src dst : Str) : Str :=
  chars "Copied and renamed: " ++ src ++ chars " -> " ++ dst

/-- `os.makedirs(output_dir, exist_ok=True)` for `txtexport_flattened`. -/
def mkOutputDir (fs : FS) : FS :=
  if memPath [outDirSeg] fs.dirs then fs else ⟨fs.dirs ++ [[outDirSeg]], fs.files⟩

/-- Errors a run can terminate with. -/
inductive PyErr where
  | fileNotFound
  deriving DecidableEq

instance {ε α : Type} [DecidableEq ε] [DecidableEq α] : DecidableEq (Except ε α) :=
  fun x y =>
    match x, y with
    | Except.error a, Except.error b =>
      if h : a = b then isTrue (congrArg Except.error h)
      else isFalse (fun hc => h (Except.error.inj hc))
    | Except.error _, Except.ok _ => isFalse (fun hc => Except.noConfusion hc)
    | Except.ok _, Except.error _ => isFalse (fun hc => Except.noConfusion hc)
    | Except.ok a, Except.ok b =>
      if h : a = b then isTrue (congrArg Except.ok h)
      else isFalse (fun hc => h (Except.ok.inj hc))

/-- In-memory record of a mode-a run: the `processed_files` list, the copy
events `(destination file name, bytes written)` in order, and the printed
progress lines. -/
structure RunA where
  processed : List Str
  copies : List (Str × List Nat)
  log : List Str
  deriving DecidableEq

/-- Destination file name for a copied source file:
`os.path.basename(path) + ".txt"`. -/
def destName (p : Path) : Str := lastSeg p ++ chars ".txt"

/-- One iteration of the mode-a loop body (`txtexport.py`, lines 24-47):
directory entries are walked and every found file is recorded with a
`/`-prefixed normalised path and copied; file entries are recorded verbatim
and copied; anything else is logged as not found. -/
def stepA (fs : FS) (relativePath : Str) : RunA :=
  let segs := entrySegs relativePath
  if isDir fs segs then
    let found := walk fs segs
    ⟨found.map (fun f => '/' :: render f.1),
     found.map (fun f => (destName f.1, f.2)),
     found.map (fun f => copiedLine (winPath f.1) (winPath [outDirSeg, destName f.1]))⟩
  else
    match findFile fs segs with
    | some content =>
      ⟨[relativePath],
       [(destName segs, content)],
       [copiedLine (winJoin (dropSlash relativePath)) (winPath [outDirSeg, destName segs])]⟩
    | none => ⟨[], [], [notFoundLine relativePath]⟩

/-- The mode-a loop over manifest entries, accumulating in program order. -/
def loopA (fs : FS) : List Str → RunA → RunA
  | [], acc => acc
  | e :: rest, acc =>
    let s := stepA fs e
    loopA fs rest ⟨acc.processed ++ s.processed, acc.copies ++ s.copies, acc.log ++ s.log⟩

/-- The full mode-a processing loop from an empty record. -/
def runA (fs : FS) (entries : List Str) : RunA := loopA fs entries ⟨[], [], []⟩

/-- Name of the mode-a index artifact. -/
def indexFileName : Str := chars "project_file_system.txt"

/-- Bytes of `project_file_system.txt`: header, blank line, then the
recorded paths joined with newlines, UTF-8 encoded. -/
def indexContent (r : RunA) : List Nat :=
  utf8Encode (codes (chars "**ULP 1.5 Project Files**\n\n" ++
    List.intercalate (chars "\n") r.processed))

/-- Apply the copy events of a mode-a run to the file system: each event
writes its bytes under the output directory. -/
def applyCopies (fs : FS) (cs : List (Str × List Nat)) : FS :=
  cs.foldl (fun g c => writeFile g [outDirSeg, c.1] c.2) fs

/-- Apply a whole mode-a run: the copies, then the index artifact. -/
def applyRunA (fs : FS) (r : RunA) : FS :=
  writeFile (applyCopies fs r.copies) [outDirSeg, indexFileName] (indexContent r)

/-- The whole of `txtexport.py` as a function of the initial file system:
create the output directory, read the manifest (a missing manifest aborts
the run with the error propagated), process every entry, write artifacts. -/
def scriptA (fs : FS) : FS × Except PyErr RunA :=
  let fs1 := mkOutputDir fs
  match findFile fs1 manifestPath with
  | none => (fs1, Except.error PyErr.fileNotFound)
  | some bs =>
    let r := runA fs1 (readEntries (textRead bs))
    (applyRunA fs1 r, Except.ok r)

/-- In-memory record of a mode-b run: the code points written to the
combined output stream and the printed progress lines. -/
structure RunB where
  out : List Nat
  log : List Str
  deriving DecidableEq

/-- The delimited block written for one file in mode b: start line with the
path, the decoded content, a newline and the end line, then a blank line. -/
def blockB (p : Str) (content : List Nat) : List Nat :=
  codes (chars "--- START OF FILE: " ++ p ++ chars " ---\n") ++ content ++
  codes (chars "\n--- END OF FILE: " ++ p ++ chars " ---\n\n")

/-- One iteration of the mode-b loop body (`txtexport_onefile.py`, lines
77-99): directory entries are walked and every found file contributes a
block keyed by its normalised relative path; file entries contribute a block
keyed by the verbatim manifest line; anything else is logged as not found. -/
def stepB (fs : FS) (relativePath : Str) : RunB :=
  let segs := entrySegs relativePath
  if isDir fs segs then
    ⟨(walk fs segs).flatMap (fun f => blockB (render f.1) (decodeText f.2)), []⟩
  else
    match findFile fs segs with
    | some content => ⟨blockB relativePath (decodeText content), []⟩
    | none => ⟨[], [notFoundLine relativePath]⟩

/-- The mode-b loop over manifest entries, accumulating in program order. -/
def loopB (fs : FS) : List Str → RunB → RunB
  | [], acc => acc
  | e :: rest, acc =>
    let s := stepB fs e
    loopB fs rest ⟨acc.out ++ s.out, acc.log ++ s.log⟩

/-- The full mode-b processing loop from an empty record. -/
def runB (fs : FS) (entries : List Str) : RunB := loopB fs entries ⟨[], []⟩

/-- Name of the mode-b combined artifact. -/
def combinedName : Str := chars "all_files_combined.txt"

/-- Apply a mode-b run: write the combined stream, UTF-8 encoded. -/
def applyRunB (fs : FS) (r : RunB) : FS :=
  writeFile fs [outDirSeg, combinedName] (utf8Encode r.out)

/-- The whole of `txtexport_onefile.py` as a function of the initial file
system. -/
def scriptB (fs : FS) : FS × Except PyErr RunB :=
  let fs1 := mkOutputDir fs
  match findFile fs1 manifestPath with
  | none => (fs1, Except.error PyErr.fileNotFound)
  | some bs =>
    let r := runB fs1 (readEntries (textRead bs))
    (applyRunB fs1 r, Except.ok r)

/-- The source files a manifest resolves to, in discovery order, with their
contents (used to state claims about mode a's copies). -/
def resolvedFiles (fs : FS) (entries : List Str) : List (Path × List Nat) :=
  entries.flatMap (fun e =>
    let segs := entrySegs e
    if isDir fs segs then walk fs segs
    else match findFile fs segs with
      | some content => [(segs, content)]
      | none => [])

/-- The combined-output fragment one manifest entry contributes in mode b
(used to state claims about the block structure of the output). -/
def entryOutB (fs : FS) (e : Str) : List Nat :=
  let segs := entrySegs e
  if isDir fs segs then
    (walk fs segs).flatMap (fun f => blockB (render f.1) (decodeText f.2))
  else match findFile fs segs with
    | some content => blockB e (decodeText content)
    | none => []

/-- A manifest entry that resolves to neither a directory nor a file. -/
def entryMissing (fs : FS) (e : Str) : Prop :=
  isDir fs (entrySegs e) = false ∧ findFile fs (entrySegs e) = none

instance (fs : FS) (e : Str) : Decidable (entryMissing fs e) := by
  unfold entryMissing; infer_instance

/-- The manifest entries a file system holds (empty when the manifest file
is absent); both scripts read the same manifest. -/
def entriesOfFS (fs : FS) : List Str :=
  match findFile fs manifestPath with
  | none => []
  | some bs => readEntries (textRead bs)

/-- A manifest entry whose resolved path neither lies below the output
directory nor is an ancestor of it, so that the entry reads only genuine
source files (the hypothesis under which re-running is idempotent). -/
def entrySeparated (e : Str) : Prop :=
  pathUnder (entrySegs e) [outDirSeg] = false ∧
  pathUnder [outDirSeg] (entrySegs e) = false

instance (e : Str) : Decidable (entrySeparated e) := by
  unfold entrySeparated; infer_instance

/-- Bytes of a Lean string literal, used to write concrete file contents. -/
def bytes (s : String) : List Nat := s.data.map Char.toNat

/-- Fixture: a file system holding `dirA/x.txt` and `fileB.py`, with a
manifest listing `/dirA` and `fileB.py` (the worked example of the spec). -/
def fsExample : FS :=
  ⟨[[chars "dirA"]],
   [([manifestName], bytes "/dirA\nfileB.py\n"),
    ([chars "dirA", chars "x.txt"], bytes "hello\n"),
    ([chars "fileB.py"], bytes "print(1)\n")]⟩

/-- Fixture: a file system whose single source file contains a CRLF
sequence (bytes `A \r \n B`). -/
def fsCrlf : FS := ⟨[], [([chars "f.txt"], bytes "A\r\nB")]⟩

/-- Fixture: a file system with a file below the output directory as well
as a source file at top level. -/
def fsWithOut : FS :=
  ⟨[[outDirSeg]],
   [([chars "a.txt"], bytes "A"), ([outDirSeg, chars "old.txt"], bytes "B")]⟩

/-- Fixture: an empty base directory (no manifest). -/
def fsEmpty : FS := ⟨[], []⟩

/-- Fixture: a base directory with one stray file and no manifest. -/
def fsNoManifest : FS := ⟨[], [([chars "x"], [65])]⟩

/-- The `processed_files` record of the mode-a loop is the concatenation of
the per-entry records, in manifest order. -/
theorem loopA_processed (fs : FS) (es : List Str) (acc : RunA) :
    (loopA fs es acc).processed =
      acc.processed ++ es.flatMap (fun e => (stepA fs e).processed) := by
  induction es generalizing acc with
  | nil => simp [loopA]
  | cons e rest ih => simp [loopA, ih]

/-- The copy events of the mode-a loop are the concatenation of the
per-entry events, in manifest order. -/
theorem loopA_copies (fs : FS) (es : List Str) (acc : RunA) :
    (loopA fs es acc).copies =
      acc.copies ++ es.flatMap (fun e => (stepA fs e).copies) := by
  induction es generalizing acc with
  | nil => simp [loopA]
  | cons e rest ih => simp [loopA, ih]

/-- The progress log of the mode-a loop is the concatenation of the
per-entry logs, in manifest order. -/
theorem loopA_log (fs : FS) (es : List Str) (acc : RunA) :
    (loopA fs es acc).log =
      acc.log ++ es.flatMap (fun e => (stepA fs e).log) := by
  induction es generalizing acc with
  | nil => simp [loopA]
  | cons e rest ih => simp [loopA, ih]

/-- The combined output stream of the mode-b loop is the concatenation of
the per-entry fragments, in manifest order. -/
theorem loopB_out (fs : FS) (es : List Str) (acc : RunB) :
    (loopB fs es acc).out = acc.out ++ es.flatMap (fun e => (stepB fs e).out) := by
  induction es generalizing acc with
  | nil => simp [loopB]
  | cons e rest ih => simp [loopB, ih]

/-- The progress log of the mode-b loop is the concatenation of the
per-entry logs, in manifest order. -/
theorem loopB_log (fs : FS) (es : List Str) (acc : RunB) :
    (loopB fs es acc).log = acc.log ++ es.flatMap (fun e => (stepB fs e).log) := by
  induction es generalizing acc with
  | nil => simp [loopB]
  | cons e rest ih => simp [loopB, ih]

/-- Congruence for `flatMap` under a pointwise-equal function. -/
theorem flatMap_congr_mem {α β : Type} (l : List α) (f g : α → List β)
    (h : ∀ a ∈ l, f a = g a) : l.flatMap f = l.flatMap g := by
  induction l with
  | nil => rfl
  | cons a rest ih =>
    simp only [List.flatMap_cons]
    rw [h a (by simp), ih (fun b hb => h b (by simp [hb]))]

/-- C1 counterexample: for a source file whose bytes are `A \r \n B`, the
mode-b block content is not the UTF-8 `errors="ignore"` decode of the
file's bytes (the text-mode read also translates `\r\n` to `\n`). -/
theorem c1_counterexample :
    (runB fsCrlf [chars "f.txt"]).out ≠
      blockB (chars "f.txt") (utf8DecodeIgnore (bytes "A\r\nB")) := by
  decide

/-- C1 (amended): in mode b the combined output is exactly the
concatenation, in discovery order, of one block per resolved file — a start
delimiter carrying the block's path, the file content as read in text mode
(UTF-8 decoded with undecodable bytes dropped, then `\r\n` and `\r`
translated to `\n`), a newline, an end delimiter carrying the same path and
a blank line; directory-discovered files carry the normalised relative
path, directly-listed files the verbatim manifest line.  In particular, for
the manifest `["/dirA", "fileB.py"]` where `dirA` holds `x.txt`, the output
is the `dirA/x.txt` block followed by the `fileB.py` block. -/
theorem c1_combined_blocks :
    (∀ (fs : FS) (entries : List Str),
       (runB fs entries).out = entries.flatMap (entryOutB fs)) ∧
    (scriptB fsExample).2 =
      Except.ok ⟨blockB (chars "dirA/x.txt") (decodeText (bytes "hello\n")) ++
                 blockB (chars "fileB.py") (decodeText (bytes "print(1)\n")), []⟩ := by
  constructor
  · intro fs entries
    rw [runB, loopB_out]
    simp only [List.nil_append]
    apply flatMap_congr_mem
    intro e _
    simp only [stepB, entryOutB]
    split
    · rfl
    · cases h : findFile fs (entrySegs e) <;> simp
  · decide

/-- C2: in mode a the recorded index paths are, per manifest entry, the
`/`-prefixed forward-slash normalised base-relative path for every file
discovered below a directory entry, and the verbatim manifest line for a
directly-listed file entry; missing entries record nothing. -/
theorem c2_recorded_paths (fs : FS) (entries : List Str) :
    (runA fs entries).processed =
      entries.flatMap (fun e =>
        if isDir fs (entrySegs e) then
          (walk fs (entrySegs e)).map (fun f => '/' :: render f.1)
        else
          match findFile fs (entrySegs e) with
          | some _ => [e]
          | none => []) := by
  rw [runA, loopA_processed]
  simp only [List.nil_append]
  apply flatMap_congr_mem
  intro e _
  simp only [stepA]
  split
  · rfl
  · cases findFile fs (entrySegs e) <;> rfl

/-- C3: in mode a every resolved source file gives rise to exactly one copy
event, in discovery order, writing the source's bytes unchanged (hence the
same byte count) to the destination named by the source's final path
segment with `.txt` appended. -/
theorem c3_copy_bytes (fs : FS) (entries : List Str) :
    (runA fs entries).copies =
      (resolvedFiles fs entries).map (fun f => (destName f.1, f.2)) := by
  rw [runA, loopA_copies]
  simp only [List.nil_append, resolvedFiles]
  rw [List.map_flatMap]
  apply flatMap_congr_mem
  intro e _
  simp only [stepA]
  split
  · rfl
  · cases findFile fs (entrySegs e) <;> rfl

/-- C4: a manifest entry resolving to neither a file nor a directory adds a
`Path not found` line to the log of either exporter, contributes nothing to
the index record, the copy events or the combined output, and the remaining
entries are processed exactly as without it. -/
theorem c4_missing_entry (fs : FS) (e : Str) (rest : List Str)
    (h : entryMissing fs e) :
    (runA fs (e :: rest)).processed = (runA fs rest).processed ∧
    (runA fs (e :: rest)).copies = (runA fs rest).copies ∧
    (runA fs (e :: rest)).log = notFoundLine e :: (runA fs rest).log ∧
    (runB fs (e :: rest)).out = (runB fs rest).out ∧
    (runB fs (e :: rest)).log = notFoundLine e :: (runB fs rest).log := by
  obtain ⟨hd, hf⟩ := h
  have hA : stepA fs e = ⟨[], [], [notFoundLine e]⟩ := by
    simp [stepA, hd, hf]
  have hB : stepB fs e = ⟨[], [notFoundLine e]⟩ := by
    simp [stepB, hd, hf]
  refine ⟨?_, ?_, ?_, ?_, ?_⟩ <;>
    simp [runA, runB, loopA_processed, loopA_copies, loopA_log, loopB_out,
      loopB_log, hA, hB]

/-- C4 witness at a concrete missing entry. -/
theorem c4_missing_entry_witness :
    entryMissing fsExample (chars "nope") ∧
    ((runA fsExample [chars "nope", chars "fileB.py"]).processed =
        (runA fsExample [chars "fileB.py"]).processed ∧
      (runA fsExample [chars "nope", chars "fileB.py"]).copies =
        (runA fsExample [chars "fileB.py"]).copies ∧
      (runA fsExample [chars "nope", chars "fileB.py"]).log =
        notFoundLine (chars "nope") :: (runA fsExample [chars "fileB.py"]).log ∧
      (runB fsExample [chars "nope", chars "fileB.py"]).out =
        (runB fsExample [chars "fileB.py"]).out ∧
      (runB fsExample [chars "nope", chars "fileB.py"]).log =
        notFoundLine (chars "nope") :: (runB fsExample [chars "fileB.py"]).log) :=
  ⟨by decide, c4_missing_entry fsExample (chars "nope") [chars "fileB.py"] (by decide)⟩

/-- Unfolding lemma for one decode step. -/
theorem utf8DecodeIgnore_cons (b : Nat) (bs : List Nat) :
    utf8DecodeIgnore (b :: bs) =
      match utf8Step b bs with
      | (some c, rest) => c :: utf8DecodeGo bs.length rest
      | (none, rest) => utf8DecodeGo bs.length rest := rfl

/-- C5: in mode b no file content can abort the run — the output for a
manifest always extends, entry by entry, to the remaining entries — and an
invalid byte (here: any byte that cannot start a UTF-8 sequence) is dropped
by the decoder at the character level, decoding continuing with the very
next byte. -/
theorem c5_lossy_decode :
    (∀ (fs : FS) (e : Str) (rest : List Str),
       (runB fs (e :: rest)).out = (stepB fs e).out ++ (runB fs rest).out ∧
       (runB fs (e :: rest)).log = (stepB fs e).log ++ (runB fs rest).log) ∧
    (∀ (b : Nat) (bs : List Nat), 0x80 ≤ b → b < 0xC2 →
       utf8DecodeIgnore (b :: bs) = utf8DecodeIgnore bs) := by
  constructor
  · intro fs e rest
    constructor <;> simp [runB, loopB_out, loopB_log]
  · intro b bs h1 h2
    have hs : utf8Step b bs = (none, bs) := by
      unfold utf8Step
      rw [if_neg (by omega), if_neg (by simp; omega), if_neg (by simp; omega),
        if_neg (by simp; omega)]
    rw [utf8DecodeIgnore_cons, hs]
    rfl

/-- C5 witness: a concrete invalid byte (a stray continuation byte) is
dropped while decoding continues. -/
theorem c5_lossy_decode_witness :
    utf8DecodeIgnore (0x80 :: bytes "A") = utf8DecodeIgnore (bytes "A") :=
  c5_lossy_decode.2 0x80 (bytes "A") (by decide) (by decide)

/-- C9: a manifest line that is empty or all `/` characters resolves, after
`lstrip("/")`, to the base directory itself, so in mode a it records and
copies every file of the entire tree — including anything below the output
directory — and in mode b it emits a block for every file of the tree. -/
theorem c9_slash_entry (fs : FS) (s : Str) (h : ∀ c ∈ s, c = '/') :
    entrySegs s = [] ∧ isDir fs (entrySegs s) = true ∧
    (stepA fs s).processed = fs.files.map (fun f => '/' :: render f.1) ∧
    (stepA fs s).copies = fs.files.map (fun f => (destName f.1, f.2)) ∧
    (stepB fs s).out =
      fs.files.flatMap (fun f => blockB (render f.1) (decodeText f.2)) := by
  have hds : dropSlash s = [] := by
    rw [dropSlash, List.dropWhile_eq_nil_iff]
    intro c hc
    simp [h c hc]
  have hsegs : entrySegs s = [] := by
    unfold entrySegs
    rw [hds]
    rfl
  have hdir : isDir fs ([] : Path) = true := rfl
  have hw : walk fs [] = fs.files := by
    unfold walk
    have : (fun f : Path × List Nat => pathUnder [] f.1) = fun _ => true := by
      funext f
      rfl
    rw [this, List.filter_true]
  refine ⟨hsegs, by rw [hsegs]; rfl, ?_, ?_, ?_⟩ <;>
    simp [stepA, stepB, hsegs, hdir, hw]

/-- C9 witness: the entry `"//"` on a file system that has a file below the
output directory exports that file too. -/
theorem c9_slash_entry_witness :
    entrySegs (chars "//") = [] ∧ isDir fsWithOut (entrySegs (chars "//")) = true ∧
    (stepA fsWithOut (chars "//")).processed =
      fsWithOut.files.map (fun f => '/' :: render f.1) ∧
    (stepA fsWithOut (chars "//")).copies =
      fsWithOut.files.map (fun f => (destName f.1, f.2)) ∧
    (stepB fsWithOut (chars "//")).out =
      fsWithOut.files.flatMap (fun f => blockB (render f.1) (decodeText f.2)) :=
  c9_slash_entry fsWithOut (chars "//") (by decide)

/-- C6 counterexample: the manifest text `"\nfoo\n"` has lines
`["", "foo"]`, but the reader does not produce them — its leading blank
line is not preserved as an entry. -/
theorem c6_counterexample :
    readEntries (chars "\nfoo\n") ≠ [chars "", chars "foo"] := by
  decide

/-- C6 (amended): the manifest reader reads the file as text, strips
leading as well as trailing whitespace, and then splits into lines — so
blank lines (or any whitespace) at either end of the manifest are removed,
not preserved as entries, while interior lines are kept in file order. -/
theorem c6_strip_both_ends :
    (∀ t : Str, readEntries (chars "\n" ++ t) = readEntries t) ∧
    (∀ t : Str, readEntries (t ++ chars "\n") = readEntries t) ∧
    readEntries (chars "\nfoo\n") = [chars "foo"] := by
  refine ⟨?_, ?_, by decide⟩
  · intro t
    have h : chars "\n" ++ t = '\n' :: t := rfl
    rw [h]
    unfold readEntries pyStrip pyLstripWs
    rw [List.dropWhile_cons_of_pos (by decide)]
  · intro t
    have hstrip : pyStrip (t ++ chars "\n") = pyStrip t := by
      have h : t ++ chars "\n" = t ++ ['\n'] := rfl
      unfold pyStrip pyLstripWs
      rw [h, List.dropWhile_append]
      by_cases he : (t.dropWhile isPyWs).isEmpty
      · rw [List.isEmpty_iff] at he
        simp [he, List.dropWhile]
      · simp only [he, Bool.false_eq_true, if_false]
        rw [List.reverse_append]
        show (('\n' :: (t.dropWhile isPyWs).reverse).dropWhile isPyWs).reverse = _
        rw [List.dropWhile_cons_of_pos (by decide)]
    unfold readEntries
    rw [hstrip]

/-- Creating the output directory leaves the file association list
untouched. -/
theorem findFile_mkOutputDir (fs : FS) (p : Path) :
    findFile (mkOutputDir fs) p = findFile fs p := by
  unfold mkOutputDir findFile
  split <;> rfl

/-- C7: when the manifest file is absent, either exporter terminates with
the propagated file-not-found error, the only state change being the output
directory creation — no manifest entry is processed and no artifact is
written. -/
theorem c7_manifest_missing (fs : FS) (h : findFile fs manifestPath = none) :
    scriptA fs = (mkOutputDir fs, Except.error PyErr.fileNotFound) ∧
    scriptB fs = (mkOutputDir fs, Except.error PyErr.fileNotFound) := by
  have h1 : findFile (mkOutputDir fs) manifestPath = none := by
    rw [findFile_mkOutputDir]
    exact h
  constructor <;> simp [scriptA, scriptB, h1]

/-- C7 witness at the empty base directory. -/
theorem c7_manifest_missing_witness :
    findFile fsEmpty manifestPath = none ∧
    (scriptA fsEmpty = (mkOutputDir fsEmpty, Except.error PyErr.fileNotFound) ∧
     scriptB fsEmpty = (mkOutputDir fsEmpty, Except.error PyErr.fileNotFound)) :=
  ⟨by decide, c7_manifest_missing fsEmpty (by decide)⟩

/-- A path appended to a path list is a member. -/
theorem memPath_append_self (p : Path) (l : List Path) :
    memPath p (l ++ [p]) = true := by
  induction l with
  | nil => simp [memPath]
  | cons q rest ih =>
    simp only [List.cons_append, memPath]
    split
    · rfl
    · exact ih

/-- After `os.makedirs(output_dir, exist_ok=True)` the output directory
exists. -/
theorem isDir_mkOutputDir (fs : FS) :
    isDir (mkOutputDir fs) [outDirSeg] = true := by
  unfold mkOutputDir isDir
  split
  · next hmem => simp [hmem]
  · simp [memPath_append_self]

/-- C10: both exporters create the output directory before reading the
manifest, so a run that aborts because the manifest is missing still leaves
`txtexport_flattened` created. -/
theorem c10_outdir_created (fs : FS) (h : findFile fs manifestPath = none) :
    ((scriptA fs).2 = Except.error PyErr.fileNotFound ∧
      isDir (scriptA fs).1 [outDirSeg] = true) ∧
    ((scriptB fs).2 = Except.error PyErr.fileNotFound ∧
      isDir (scriptB fs).1 [outDirSeg] = true) := by
  have h1 : findFile (mkOutputDir fs) manifestPath = none := by
    rw [findFile_mkOutputDir]
    exact h
  refine ⟨⟨?_, ?_⟩, ⟨?_, ?_⟩⟩ <;> simp [scriptA, scriptB, h1, isDir_mkOutputDir]

/-- C10 witness at a base directory holding one stray file and no
manifest. -/
theorem c10_outdir_created_witness :
    findFile fsNoManifest manifestPath = none ∧
    (((scriptA fsNoManifest).2 = Except.error PyErr.fileNotFound ∧
       isDir (scriptA fsNoManifest).1 [outDirSeg] = true) ∧
     ((scriptB fsNoManifest).2 = Except.error PyErr.fileNotFound ∧
       isDir (scriptB fsNoManifest).1 [outDirSeg] = true)) :=
  ⟨by decide, c10_outdir_created fsNoManifest (by decide)⟩

/-- The base path is below any ancestor written as `[x]` continued. -/
theorem pathUnder_cons_self (x : Str) (l : Path) : pathUnder [x] (x :: l) = true := by
  simp [pathUnder]

/-- A path that is neither below `[x]` nor an ancestor of `[x]` is not an
ancestor of `[x, n]` either. -/
theorem pathUnder_out_two (q : Path) (x n : Str) (h1 : pathUnder q [x] = false)
    (h2 : pathUnder [x] q = false) : pathUnder q [x, n] = false := by
  rcases q with _ | ⟨a, _ | ⟨b, t⟩⟩
  · exact absurd h1 (by simp [pathUnder])
  · by_cases hax : a = x
    · subst hax
      simp [pathUnder] at h2
    · simp [pathUnder, hax]
  · by_cases hax : a = x
    · subst hax
      simp only [pathUnder, if_pos rfl]
      by_cases hbn : b = n
      · subst hbn
        cases t with
        | nil => rw [pathUnder_cons_self] at h2; exact absurd h2 (by simp)
        | cons c t2 => simp [pathUnder]
      · simp [pathUnder, hbn]
    · simp [pathUnder, hax]

/-- Overwriting a path leaves lookups of other paths unchanged. -/
theorem findFileGo_write (p q : Path) (c : List Nat) (l : List (Path × List Nat))
    (h : q ≠ p) : findFileGo q (removeFile p l ++ [(p, c)]) = findFileGo q l := by
  induction l with
  | nil => simp [removeFile, findFileGo, Ne.symm h]
  | cons f rest ih =>
    simp only [removeFile]
    split
    · next hfp =>
      rw [ih]
      simp [findFileGo, hfp, Ne.symm h]
    · next hfp =>
      simp only [List.cons_append, findFileGo]
      by_cases hfq : f.1 = q
      · simp [hfq]
      · simp only [hfq, if_false]
        exact ih

/-- Overwriting a path outside a walked subtree leaves the walk
unchanged. -/
theorem filter_write (q p : Path) (c : List Nat) (l : List (Path × List Nat))
    (h : pathUnder q p = false) :
    (removeFile p l ++ [(p, c)]).filter (fun f => pathUnder q f.1) =
      l.filter (fun f => pathUnder q f.1) := by
  induction l with
  | nil => simp [removeFile, List.filter_cons, h]
  | cons f rest ih =>
    simp only [removeFile]
    split
    · next hfp =>
      rw [ih, List.filter_cons, hfp]
      simp [h]
    · next hfp =>
      simp only [List.cons_append, List.filter_cons]
      by_cases hq : pathUnder q f.1 = true
      · simp [hq, ih]
      · simp [hq, ih]

/-- Writing a file named below the output directory: lookups of paths not
below the output directory are unchanged. -/
theorem findFile_writeOut (fs : FS) (n : Str) (c : List Nat) (q : Path)
    (h2 : pathUnder [outDirSeg] q = false) :
    findFile (writeFile fs [outDirSeg, n] c) q = findFile fs q := by
  have hne : q ≠ [outDirSeg, n] := by
    intro he
    rw [he, pathUnder_cons_self] at h2
    exact absurd h2 (by simp)
  exact findFileGo_write [outDirSeg, n] q c fs.files hne

/-- Writing a file below the output directory: walks of subtrees separated
from the output directory are unchanged. -/
theorem walk_writeOut (fs : FS) (n : Str) (c : List Nat) (q : Path)
    (h1 : pathUnder q [outDirSeg] = false) (h2 : pathUnder [outDirSeg] q = false) :
    walk (writeFile fs [outDirSeg, n] c) q = walk fs q :=
  filter_write q [outDirSeg, n] c fs.files (pathUnder_out_two q outDirSeg n h1 h2)

/-- Applying copy events never changes the directory list. -/
theorem applyCopies_dirs (cs : List (Str × List Nat)) (fs : FS) :
    (applyCopies fs cs).dirs = fs.dirs := by
  induction cs generalizing fs with
  | nil => rfl
  | cons c rest ih =>
    show (applyCopies (writeFile fs [outDirSeg, c.1] c.2) rest).dirs = fs.dirs
    rw [ih]
    rfl

/-- Applying copy events leaves lookups outside the output directory
unchanged. -/
theorem applyCopies_findFile (cs : List (Str × List Nat)) (fs : FS) (q : Path)
    (h2 : pathUnder [outDirSeg] q = false) :
    findFile (applyCopies fs cs) q = findFile fs q := by
  induction cs generalizing fs with
  | nil => rfl
  | cons c rest ih =>
    show findFile (applyCopies (writeFile fs [outDirSeg, c.1] c.2) rest) q = _
    rw [ih, findFile_writeOut _ _ _ _ h2]

/-- Applying copy events leaves walks of separated subtrees unchanged. -/
theorem applyCopies_walk (cs : List (Str × List Nat)) (fs : FS) (q : Path)
    (h1 : pathUnder q [outDirSeg] = false) (h2 : pathUnder [outDirSeg] q = false) :
    walk (applyCopies fs cs) q = walk fs q := by
  induction cs generalizing fs with
  | nil => rfl
  | cons c rest ih =>
    show walk (applyCopies (writeFile fs [outDirSeg, c.1] c.2) rest) q = _
    rw [ih, walk_writeOut _ _ _ _ h1 h2]

/-- Applying a whole mode-a run never changes the directory list. -/
theorem applyRunA_dirs (fs : FS) (r : RunA) : (applyRunA fs r).dirs = fs.dirs := by
  show (applyCopies fs r.copies).dirs = fs.dirs
  exact applyCopies_dirs _ _

/-- Applying a whole mode-a run leaves lookups outside the output directory
unchanged. -/
theorem applyRunA_findFile (fs : FS) (r : RunA) (q : Path)
    (h2 : pathUnder [outDirSeg] q = false) :
    findFile (applyRunA fs r) q = findFile fs q := by
  unfold applyRunA
  rw [findFile_writeOut _ _ _ _ h2, applyCopies_findFile _ _ _ h2]

/-- Applying a whole mode-a run leaves walks of separated subtrees
unchanged. -/
theorem applyRunA_walk (fs : FS) (r : RunA) (q : Path)
    (h1 : pathUnder q [outDirSeg] = false) (h2 : pathUnder [outDirSeg] q = false) :
    walk (applyRunA fs r) q = walk fs q := by
  unfold applyRunA
  rw [walk_writeOut _ _ _ _ h1 h2, applyCopies_walk _ _ _ h1 h2]

/-- Applying a mode-b run never changes the directory list. -/
theorem applyRunB_dirs (fs : FS) (r : RunB) : (applyRunB fs r).dirs = fs.dirs := rfl

/-- Applying a mode-b run leaves lookups outside the output directory
unchanged. -/
theorem applyRunB_findFile (fs : FS) (r : RunB) (q : Path)
    (h2 : pathUnder [outDirSeg] q = false) :
    findFile (applyRunB fs r) q = findFile fs q :=
  findFile_writeOut _ _ _ _ h2

/-- Applying a mode-b run leaves walks of separated subtrees unchanged. -/
theorem applyRunB_walk (fs : FS) (r : RunB) (q : Path)
    (h1 : pathUnder q [outDirSeg] = false) (h2 : pathUnder [outDirSeg] q = false) :
    walk (applyRunB fs r) q = walk fs q :=
  walk_writeOut _ _ _ _ h1 h2

/-- Directory classification depends only on the directory list. -/
theorem isDir_eq_of_dirs {g fs : FS} (h : g.dirs = fs.dirs) (p : Path) :
    isDir g p = isDir fs p := by
  unfold isDir
  rw [h]

/-- One mode-a loop iteration is unchanged by file-system changes confined
to the output directory, for an entry separated from it. -/
theorem stepA_sep {g fs : FS} (hdirs : g.dirs = fs.dirs)
    (hff : ∀ q, pathUnder [outDirSeg] q = false → findFile g q = findFile fs q)
    (hwalk : ∀ q, pathUnder q [outDirSeg] = false → pathUnder [outDirSeg] q = false →
      walk g q = walk fs q)
    (e : Str) (he : entrySeparated e) : stepA g e = stepA fs e := by
  obtain ⟨h1, h2⟩ := he
  simp only [stepA]
  rw [isDir_eq_of_dirs hdirs, hwalk _ h1 h2, hff _ h2]

/-- One mode-b loop iteration is unchanged by file-system changes confined
to the output directory, for an entry separated from it. -/
theorem stepB_sep {g fs : FS} (hdirs : g.dirs = fs.dirs)
    (hff : ∀ q, pathUnder [outDirSeg] q = false → findFile g q = findFile fs q)
    (hwalk : ∀ q, pathUnder q [outDirSeg] = false → pathUnder [outDirSeg] q = false →
      walk g q = walk fs q)
    (e : Str) (he : entrySeparated e) : stepB g e = stepB fs e := by
  obtain ⟨h1, h2⟩ := he
  simp only [stepB]
  rw [isDir_eq_of_dirs hdirs, hwalk _ h1 h2, hff _ h2]

/-- The mode-a loop depends on the file system only through its steps. -/
theorem loopA_congr (g fs : FS) (es : List Str)
    (h : ∀ e ∈ es, stepA g e = stepA fs e) :
    ∀ acc, loopA g es acc = loopA fs es acc := by
  induction es with
  | nil => intro acc; rfl
  | cons e rest ih =>
    intro acc
    simp only [loopA]
    rw [h e (by simp)]
    exact ih (fun x hx => h x (by simp [hx])) _

/-- The mode-b loop depends on the file system only through its steps. -/
theorem loopB_congr (g fs : FS) (es : List Str)
    (h : ∀ e ∈ es, stepB g e = stepB fs e) :
    ∀ acc, loopB g es acc = loopB fs es acc := by
  induction es with
  | nil => intro acc; rfl
  | cons e rest ih =>
    intro acc
    simp only [loopB]
    rw [h e (by simp)]
    exact ih (fun x hx => h x (by simp [hx])) _

/-- `os.makedirs(..., exist_ok=True)` is the identity when the directory
already exists. -/
theorem mkOutputDir_eq_self {fs : FS} (h : memPath [outDirSeg] fs.dirs = true) :
    mkOutputDir fs = fs := by
  simp [mkOutputDir, h]

/-- After creating the output directory it is in the directory list. -/
theorem memPath_mkOutputDir (fs : FS) :
    memPath [outDirSeg] (mkOutputDir fs).dirs = true := by
  unfold mkOutputDir
  split
  · next h => exact h
  · exact memPath_append_self _ _

/-- C8: when no manifest entry resolves into or above the output directory
(so the sources a run reads are disjoint from the artifacts it writes),
re-running either exporter on the file system left by the first run yields
exactly the same run record — hence byte-identical output artifacts, since
every artifact byte is a function of the record (overwrite semantics, no
accumulation). -/
theorem c8_idempotent (fs : FS)
    (h : ∀ e ∈ entriesOfFS fs, entrySeparated e) :
    (scriptA (scriptA fs).1).2 = (scriptA fs).2 ∧
    (scriptB (scriptB fs).1).2 = (scriptB fs).2 := by
  have hout : pathUnder [outDirSeg] manifestPath = false := by decide
  have hmem1 : memPath [outDirSeg] (mkOutputDir fs).dirs = true := memPath_mkOutputDir fs
  constructor
  · rcases hm : findFile (mkOutputDir fs) manifestPath with _ | bs
    · have hA : scriptA fs = (mkOutputDir fs, Except.error PyErr.fileNotFound) := by
        simp [scriptA, hm]
      rw [hA]
      simp [scriptA, mkOutputDir_eq_self hmem1, hm]
    · have hsep : ∀ e ∈ readEntries (textRead bs), entrySeparated e := by
        have hfs : findFile fs manifestPath = some bs := by
          rw [← findFile_mkOutputDir]
          exact hm
        have he : entriesOfFS fs = readEntries (textRead bs) := by
          simp [entriesOfFS, hfs]
        rw [he] at h
        exact h
      have hA : scriptA fs =
          (applyRunA (mkOutputDir fs) (runA (mkOutputDir fs) (readEntries (textRead bs))),
           Except.ok (runA (mkOutputDir fs) (readEntries (textRead bs)))) := by
        simp [scriptA, hm]
      rw [hA]
      have hd : (applyRunA (mkOutputDir fs) (runA (mkOutputDir fs)
          (readEntries (textRead bs)))).dirs = (mkOutputDir fs).dirs := applyRunA_dirs _ _
      have hmk : mkOutputDir (applyRunA (mkOutputDir fs)
          (runA (mkOutputDir fs) (readEntries (textRead bs)))) =
          applyRunA (mkOutputDir fs) (runA (mkOutputDir fs) (readEntries (textRead bs))) :=
        mkOutputDir_eq_self (by rw [hd]; exact hmem1)
      have hm2 : findFile (applyRunA (mkOutputDir fs)
          (runA (mkOutputDir fs) (readEntries (textRead bs)))) manifestPath = some bs := by
        rw [applyRunA_findFile _ _ _ hout]
        exact hm
      have hrun : runA (applyRunA (mkOutputDir fs)
          (runA (mkOutputDir fs) (readEntries (textRead bs)))) (readEntries (textRead bs)) =
          runA (mkOutputDir fs) (readEntries (textRead bs)) := by
        apply loopA_congr
        intro e he
        exact stepA_sep hd (fun q hq => applyRunA_findFile _ _ q hq)
          (fun q hq1 hq2 => applyRunA_walk _ _ q hq1 hq2) e (hsep e he)
      simp [scriptA, hmk, hm2, hrun]
  · rcases hm : findFile (mkOutputDir fs) manifestPath with _ | bs
    · have hB : scriptB fs = (mkOutputDir fs, Except.error PyErr.fileNotFound) := by
        simp [scriptB, hm]
      rw [hB]
      simp [scriptB, mkOutputDir_eq_self hmem1, hm]
    · have hsep : ∀ e ∈ readEntries (textRead bs), entrySeparated e := by
        have hfs : findFile fs manifestPath = some bs := by
          rw [← findFile_mkOutputDir]
          exact hm
        have he : entriesOfFS fs = readEntries (textRead bs) := by
          simp [entriesOfFS, hfs]
        rw [he] at h
        exact h
      have hB : scriptB fs =
          (applyRunB (mkOutputDir fs) (runB (mkOutputDir fs) (readEntries (textRead bs))),
           Except.ok (runB (mkOutputDir fs) (readEntries (textRead bs)))) := by
        simp [scriptB, hm]
      rw [hB]
      have hd : (applyRunB (mkOutputDir fs) (runB (mkOutputDir fs)
          (readEntries (textRead bs)))).dirs = (mkOutputDir fs).dirs := applyRunB_dirs _ _
      have hmk : mkOutputDir (applyRunB (mkOutputDir fs)
          (runB (mkOutputDir fs) (readEntries (textRead bs)))) =
          applyRunB (mkOutputDir fs) (runB (mkOutputDir fs) (readEntries (textRead bs))) :=
        mkOutputDir_eq_self (by rw [hd]; exact hmem1)
      have hm2 : findFile (applyRunB (mkOutputDir fs)
          (runB (mkOutputDir fs) (readEntries (textRead bs)))) manifestPath = some bs := by
        rw [applyRunB_findFile _ _ _ hout]
        exact hm
      have hrun : runB (applyRunB (mkOutputDir fs)
          (runB (mkOutputDir fs) (readEntries (textRead bs)))) (readEntries (textRead bs)) =
          runB (mkOutputDir fs) (readEntries (textRead bs)) := by
        apply loopB_congr
        intro e he
        exact stepB_sep hd (fun q hq => applyRunB_findFile _ _ q hq)
          (fun q hq1 hq2 => applyRunB_walk _ _ q hq1 hq2) e (hsep e he)
      simp [scriptB, hmk, hm2, hrun]

/-- C8 witness: on the example file system (manifest `/dirA`, `fileB.py`)
a second run of either exporter reproduces the first run's record. -/
theorem c8_idempotent_witness :
    (scriptA (scriptA fsExample).1).2 = (scriptA fsExample).2 ∧
    (scriptB (scriptB fsExample).1).2 = (scriptB fsExample).2 :=
  c8_idempotent fsExample (by decide)

end TxtExport
